import Mathlib

/-! Net::SMB::Dir (ext/net/smb/smbdir.c): a shallow embedding

The C functions of `smbdir.c` are embedded as functions on an explicit machine
state.  A machine holds the C global `errno`, the state of the libsmbclient
transport, the `RB_SMB_DATA` structs of the sessions and the
`RB_SMBFILE_DATA` structs of the directory objects (both indexed by the
address of the struct, which stands for the Ruby object wrapping it), and a
record of the transport calls made so far.

Every embedded function returns the Ruby-level outcome (`Except`: a raised
exception or the returned `VALUE`) together with the machine it leaves behind,
so that what a function did before raising stays visible.

Conventions.
* A C pointer is an `Option Nat`; `none` is `NULL`.
* A C string (`char *`, NUL terminated) is the `String` of the bytes before
  the terminator.
* `off_t` and `long` are both 64 bits wide (LP64); values of those types are
  integers, and the only place where a width matters is `NUM2LONG`, which
  rejects a Ruby Integer outside the range of `long`.
* A transport function may assign `errno`; it reports the value it assigned,
  or `none` when it left `errno` alone.
-/

namespace SMBDir

/-! ## Values -/

/-- C pointer: `none` is NULL. -/
abbrev Ptr := Option Nat

/-- Ruby encodings that occur: `rb_enc_find("UTF-8")` and the ASCII-8BIT
encoding of strings made by `rb_str_new`. -/
inductive Encoding where
  | utf8
  | ascii8bit
deriving DecidableEq, Repr

/-- Ruby String: its bytes and the encoding it is tagged with (`none` when
the `rb_encoding *` handed over was NULL). -/
structure RString where
  bytes : String
  enc : Option Encoding
deriving DecidableEq, Repr

/-- The fields of libsmbclient's `struct smbc_dirent` that `rb_smbdir_read`
uses.  `comment` is the buffer the `comment` pointer refers to.  The struct is
declared in libsmbclient.h; its type code is taken as a C `int`, as in the
spec's RawEntry (`typeCode: int`), so that `INT2NUM` gives the same integer. -/
structure smbc_dirent where
  smbc_type : Int
  commentlen : Nat
  comment : String
  name : String
deriving DecidableEq, Repr

/-- Modelled from the spec: the `Net::SMB::DirEntry` object built by
`rb_class_new_instance(4, args, rb_cSMBDirEntry)`; its class is defined outside
`smbdir.c`.  The four fields are the four constructor arguments, i.e. the
attributes name, type, full URL and comment of a DirectoryEntry. -/
structure DirEntry where
  name : RString
  type : Int
  url : RString
  comment : RString
deriving DecidableEq, Repr

/-- Ruby values that the methods of `Net::SMB::Dir` return. -/
inductive VALUE where
  | Qnil
  | Qtrue
  | Qfalse
  | obj (addr : Nat)
  | int (n : Int)
  | dirEntry (e : DirEntry)
  | enumerator (recv : Nat)
deriving DecidableEq, Repr

/-- Ruby exceptions raised by `smbdir.c`: `rb_raise(rb_eIOError, msg)`,
`rb_sys_fail(msg)` (a SystemCallError carrying the `errno` found and the
message, here the URL), the RangeError of `NUM2LONG`, and the ArgumentError of
`StringValueCStr` and `rb_str_new2`. -/
inductive RbException where
  | ioError (msg : String)
  | systemCallError (errno : Int) (msg : Option String)
  | rangeError
  | argumentError (msg : String)
deriving DecidableEq, Repr

/-- Modelled from the spec: type codes of libsmbclient.h (section 6 of the
spec), registered as constants by `Init_net_smbdir`. -/
def SMBC_WORKGROUP : Int := 1
/-- Modelled from the spec: type code Server. -/
def SMBC_SERVER : Int := 2
/-- Modelled from the spec: type code FileShare. -/
def SMBC_FILE_SHARE : Int := 3
/-- Modelled from the spec: type code PrinterShare. -/
def SMBC_PRINTER_SHARE : Int := 4
/-- Modelled from the spec: type code CommsShare. -/
def SMBC_COMMS_SHARE : Int := 5
/-- Modelled from the spec: type code IpcShare. -/
def SMBC_IPC_SHARE : Int := 6
/-- Modelled from the spec: type code Dir. -/
def SMBC_DIR : Int := 7
/-- Modelled from the spec: type code File. -/
def SMBC_FILE : Int := 8
/-- Modelled from the spec: type code Link. -/
def SMBC_LINK : Int := 9

/-! ## The transport (libsmbclient) -/

/-- The functions obtained from `smbc_getFunctionOpendir`, `...Closedir`,
`...Readdir`, `...Telldir` and `...Lseekdir`.  Each takes the transport state,
the context pointer and its arguments, and gives back its C return value, the
value it assigned to `errno` (if any) and the new transport state. -/
structure Transport (τ : Type) where
  opendir : τ → Ptr → String → Ptr × Option Int × τ
  closedir : τ → Ptr → Ptr → Int × Option Int × τ
  readdir : τ → Ptr → Ptr → Option smbc_dirent × Option Int × τ
  telldir : τ → Ptr → Ptr → Int × Option Int × τ
  lseekdir : τ → Ptr → Ptr → Int → Int × Option Int × τ

/-- One transport call, with the arguments it was made with. -/
inductive Call where
  | opendir (ctx : Ptr) (url : String)
  | closedir (ctx : Ptr) (dir : Ptr)
  | readdir (ctx : Ptr) (dir : Ptr)
  | telldir (ctx : Ptr) (dir : Ptr)
  | lseekdir (ctx : Ptr) (dir : Ptr) (offset : Int)
deriving DecidableEq, Repr

/-! ## The structs and the machine -/

/-- The fields of `RB_SMB_DATA` (rb_smb.h) used by `smbdir.c`: the context and
the list of the session's file/directory structs, as the addresses linked into
it, head first. -/
structure RB_SMB_DATA where
  smbcctx : Ptr
  smbfile_data_list : List Nat
deriving DecidableEq, Repr

/-- The fields of `RB_SMBFILE_DATA` (rb_smb.h) used by `smbdir.c`. -/
structure RB_SMBFILE_DATA where
  smb_obj : VALUE
  smb_data : Ptr
  smbcctx : Ptr
  smbcfile : Ptr
  url : Option String
  enc : Option Encoding
deriving DecidableEq, Repr

/-- Machine state: `errno`, the transport, the structs by address, and the
transport calls made so far (oldest first). -/
structure Machine (τ : Type) where
  errno : Int
  transport : τ
  smb : Nat → RB_SMB_DATA
  file : Nat → RB_SMBFILE_DATA
  calls : List Call

/-- Outcome of a method together with the machine it leaves. -/
abbrev Result (τ : Type) := Except RbException VALUE × Machine τ

/-- Store `v` at address `a`. -/
def store {α : Type} (f : Nat → α) (a : Nat) (v : α) : Nat → α :=
  fun x => if x = a then v else f x

/-- Value of `errno` after a call that started with `errno = cur`. -/
def errnoAfter (cur : Int) (assigned : Option Int) : Int :=
  assigned.getD cur

/-- The struct `rb_smbdir_data_alloc` makes: `memset` to zero, then
`smb_obj = Qnil`. -/
def rb_smbdir_data_alloc : RB_SMBFILE_DATA :=
  { smb_obj := VALUE.Qnil, smb_data := none, smbcctx := none, smbcfile := none,
    url := none, enc := none }

/-! ## Helpers from headers outside `smbdir.c` -/

/-- The IOError raised for a closed directory object
(`rb_raise(rb_eIOError, "Closed directory object")`, smbdir.c line 38). -/
def closedHandle : RbException :=
  RbException.ioError "Closed directory object"

/-- Modelled from the spec: the macro `RB_SMBFILE_DATA_CLOSED` of rb_smb.h,
whose text is not in `smbdir.c`.  The spec has every operation on a closed
handle fail with ClosedHandle, and a handle is closed iff its transport handle
is null; the macro is taken to raise, for a null `smbcfile`, the error that
`rb_smbdir_close_by_data` raises for the same condition. -/
def RB_SMBFILE_DATA_CLOSED (data : RB_SMBFILE_DATA) : Option RbException :=
  if data.smbcfile = none then some closedHandle else none

/-- Modelled from the spec: the macro `DLIST_REMOVE` of dlinklist.h
(deregister: remove the handle from the session's open-handle collection).  A
struct is linked into the intrusive list at most once, so removing it leaves
a list without it. -/
def DLIST_REMOVE (list : List Nat) (p : Nat) : List Nat :=
  list.filter (fun q => q ≠ p)

/-- Range of a C `long` (64 bits). -/
def LONG_MIN : Int := -(2 ^ 63)
/-- Largest C `long`. -/
def LONG_MAX : Int := 2 ^ 63 - 1

/-- Ruby's `NUM2LONG` on a Ruby Integer: the value, or RangeError when it does not
fit a `long`. -/
def NUM2LONG (n : Int) : Except RbException Int :=
  if LONG_MIN ≤ n ∧ n ≤ LONG_MAX then Except.ok n else Except.error RbException.rangeError

/-- Ruby's `rb_sys_fail(mesg)`: the exception made from the current `errno`. -/
def rb_sys_fail (errno : Int) (mesg : Option String) : RbException :=
  RbException.systemCallError errno mesg

/-- Ruby's `rb_str_new(ptr, len)`: the first `len` bytes at `ptr`. -/
def rb_str_new (ptr : String) (len : Nat) : RString :=
  { bytes := String.mk (ptr.data.take len), enc := some Encoding.ascii8bit }

/-- Ruby's `rb_str_new2(ptr)`: a copy of the C string, or ArgumentError for NULL. -/
def rb_str_new2 (ptr : Option String) : Except RbException RString :=
  match ptr with
  | none => Except.error (RbException.argumentError "NULL pointer given")
  | some s => Except.ok { bytes := s, enc := some Encoding.ascii8bit }

/-- Ruby's `rb_str_cat2(str, ptr)`: append the C string. -/
def rb_str_cat2 (str : RString) (ptr : String) : RString :=
  { str with bytes := str.bytes ++ ptr }

/-- Ruby's `rb_external_str_new_with_enc(ptr, strlen(ptr), enc)`: the C string,
tagged with `enc`. -/
def rb_external_str_new_with_enc (ptr : String) (enc : Option Encoding) : RString :=
  { bytes := ptr, enc := enc }

/-- Ruby's `rb_ensure(b_proc, e_proc)`: run the body, then the ensure function on
whatever machine the body left; an exception of the ensure function takes
over, otherwise the outcome is the body's. -/
def rb_ensure {τ : Type} (b_proc e_proc : Machine τ → Result τ) (m : Machine τ) : Result τ :=
  let r := b_proc m
  let e := e_proc r.2
  match e.1 with
  | Except.error x => (Except.error x, e.2)
  | Except.ok _ => (r.1, e.2)

/-! ## The functions of `smbdir.c` -/

/-- Function `rb_smbdir_close_by_data` (lines 35-46). -/
def rb_smbdir_close_by_data {τ : Type} (T : Transport τ) (data : Nat) (m : Machine τ) :
    Except RbException Unit × Machine τ :=
  let d := m.file data
  if d.smbcfile = none then
    (Except.error closedHandle, m)
  else
    let r := T.closedir m.transport d.smbcctx d.smbcfile
    let m1 : Machine τ :=
      { m with transport := r.2.2, errno := errnoAfter m.errno r.2.1,
               calls := m.calls ++ [Call.closedir d.smbcctx d.smbcfile] }
    if r.1 ≠ 0 then
      (Except.error (rb_sys_fail m1.errno d.url), m1)
    else
      (Except.ok (), m1)

/-- Function `rb_smbdir_close_and_deref_by_data` (lines 48-60).  The list updated is
the one of the session struct `data->smb_data` points to. -/
def rb_smbdir_close_and_deref_by_data {τ : Type} (T : Transport τ) (data : Nat)
    (m : Machine τ) : Except RbException Unit × Machine τ :=
  let r := rb_smbdir_close_by_data T data m
  match r.1 with
  | Except.error e => (Except.error e, r.2)
  | Except.ok _ =>
    let m1 := r.2
    let d := m1.file data
    let m2 : Machine τ :=
      { m1 with file := store m1.file data ({ d with smbcctx := none, smbcfile := none }) }
    match d.smb_data with
    | none => (Except.ok (), m2)
    | some sp =>
      let sd := m2.smb sp
      let sd1 : RB_SMB_DATA :=
        { sd with smbfile_data_list := DLIST_REMOVE sd.smbfile_data_list data }
      (Except.ok (), { m2 with smb := store m2.smb sp sd1 })

/-- Function `rb_smbdir_close` (lines 132-142). -/
def rb_smbdir_close {τ : Type} (T : Transport τ) (self : Nat) (m : Machine τ) : Result τ :=
  match RB_SMBFILE_DATA_CLOSED (m.file self) with
  | some e => (Except.error e, m)
  | none =>
    let r := rb_smbdir_close_and_deref_by_data T self m
    match r.1 with
    | Except.error e => (Except.error e, r.2)
    | Except.ok _ => (Except.ok (VALUE.obj self), r.2)

/-- Function `rb_smbdir_initialize` (lines 87-116).  `block` is the block given to
`new`, if any: Ruby code that receives `self` and acts on the machine. -/
def rb_smbdir_initialize {τ : Type} (T : Transport τ) (self smb_obj : Nat) (url_obj : String)
    (block : Option (VALUE → Machine τ → Result τ)) (m : Machine τ) : Result τ :=
  let smb_data := m.smb smb_obj
  if Char.ofNat 0 ∈ url_obj.data then
    (Except.error (RbException.argumentError "string contains null byte"), m)
  else
    let r := T.opendir m.transport smb_data.smbcctx url_obj
    let d := m.file self
    let m1 : Machine τ :=
      { m with transport := r.2.2, errno := errnoAfter m.errno r.2.1,
               calls := m.calls ++ [Call.opendir smb_data.smbcctx url_obj],
               file := store m.file self ({ d with smbcfile := r.1 }) }
    if r.1 = none then
      (Except.error (rb_sys_fail m1.errno (some url_obj)), m1)
    else
      let d2 : RB_SMBFILE_DATA :=
        { (m1.file self) with
          enc := some Encoding.utf8, smb_obj := VALUE.obj smb_obj, smb_data := some smb_obj,
          smbcctx := smb_data.smbcctx, url := some url_obj }
      let m2 : Machine τ := { m1 with file := store m1.file self d2 }
      match block with
      | some b => rb_ensure (b (VALUE.obj self)) (rb_smbdir_close T self) m2
      | none => (Except.ok (VALUE.obj self), m2)

/-- Macro and function `rb_smbdir_closed_p` (lines 144-152). -/
def rb_smbdir_closed_p {τ : Type} (self : Nat) (m : Machine τ) : VALUE :=
  if (m.file self).smbcfile = none then VALUE.Qtrue else VALUE.Qfalse

/-- Function `rb_smbdir_tell` (lines 166-184). -/
def rb_smbdir_tell {τ : Type} (T : Transport τ) (self : Nat) (m : Machine τ) : Result τ :=
  let d := m.file self
  match RB_SMBFILE_DATA_CLOSED d with
  | some e => (Except.error e, m)
  | none =>
    let r := T.telldir m.transport d.smbcctx d.smbcfile
    let m1 : Machine τ :=
      { m with transport := r.2.2, errno := errnoAfter 0 r.2.1,
               calls := m.calls ++ [Call.telldir d.smbcctx d.smbcfile] }
    if r.1 = -1 ∧ m1.errno ≠ 0 then
      (Except.error (rb_sys_fail m1.errno d.url), m1)
    else
      (Except.ok (VALUE.int r.1), m1)

/-- Function `rb_smbdir_seek` (lines 186-201). -/
def rb_smbdir_seek {τ : Type} (T : Transport τ) (self : Nat) (offset_num : Int)
    (m : Machine τ) : Result τ :=
  let d := m.file self
  match RB_SMBFILE_DATA_CLOSED d with
  | some e => (Except.error e, m)
  | none =>
    match NUM2LONG offset_num with
    | Except.error e => (Except.error e, m)
    | Except.ok offset =>
      let r := T.lseekdir m.transport d.smbcctx d.smbcfile offset
      let m1 : Machine τ :=
        { m with transport := r.2.2, errno := errnoAfter 0 r.2.1,
                 calls := m.calls ++ [Call.lseekdir d.smbcctx d.smbcfile offset] }
      if r.1 = -1 then
        (Except.error (rb_sys_fail m1.errno d.url), m1)
      else
        (Except.ok (VALUE.obj self), m1)

/-- Function `rb_smbdir_rewind` (lines 203-206). -/
def rb_smbdir_rewind {τ : Type} (T : Transport τ) (self : Nat) (m : Machine τ) : Result τ :=
  rb_smbdir_seek T self 0 m

/-- Function `rb_smbdir_read` (lines 208-239). -/
def rb_smbdir_read {τ : Type} (T : Transport τ) (self : Nat) (m : Machine τ) : Result τ :=
  let d := m.file self
  match RB_SMBFILE_DATA_CLOSED d with
  | some e => (Except.error e, m)
  | none =>
    let r := T.readdir m.transport d.smbcctx d.smbcfile
    let m1 : Machine τ :=
      { m with transport := r.2.2, errno := errnoAfter 0 r.2.1,
               calls := m.calls ++ [Call.readdir d.smbcctx d.smbcfile] }
    match r.1 with
    | none =>
      if m1.errno ≠ 0 then
        (Except.error (rb_sys_fail m1.errno d.url), m1)
      else
        (Except.ok VALUE.Qnil, m1)
    | some smbcdent =>
      let args0 := rb_external_str_new_with_enc smbcdent.name d.enc
      let args1 := smbcdent.smbc_type
      match rb_str_new2 d.url with
      | Except.error e => (Except.error e, m1)
      | Except.ok u =>
        let args2 := rb_str_cat2 (rb_str_cat2 u "/") smbcdent.name
        let args3 := rb_str_new smbcdent.comment smbcdent.commentlen
        (Except.ok (VALUE.dirEntry
          { name := args0, type := args1, url := args2, comment := args3 }), m1)

/-- What a run of `each` leaves: how it ended (`none`: the loop was still
running when the step budget ran out), the values passed to `rb_yield`, in
order, and the machine. -/
structure EachResult (τ : Type) where
  outcome : Option (Except RbException VALUE)
  yielded : List VALUE
  final : Machine τ

/-- The loop of `rb_smbdir_each` (lines 249-251), at most `fuel` calls of
`rb_smbdir_read`.  The block is a collecting one (as for `entries`):
`rb_yield` records the value and returns. -/
def rb_smbdir_each_loop {τ : Type} (T : Transport τ) (self : Nat) :
    Nat → Machine τ → EachResult τ
  | 0, m => { outcome := none, yielded := [], final := m }
  | fuel + 1, m =>
    let r := rb_smbdir_read T self m
    match r.1 with
    | Except.error e => { outcome := some (Except.error e), yielded := [], final := r.2 }
    | Except.ok VALUE.Qnil =>
      { outcome := some (Except.ok (VALUE.obj self)), yielded := [], final := r.2 }
    | Except.ok name =>
      let rest := rb_smbdir_each_loop T self fuel r.2
      { rest with yielded := name :: rest.yielded }

/-- Function `rb_smbdir_each` (lines 241-254): rewind, then (`RETURN_ENUMERATOR`) give
back an enumerator when no block is given, else loop. -/
def rb_smbdir_each {τ : Type} (T : Transport τ) (self : Nat) (block_given : Bool)
    (fuel : Nat) (m : Machine τ) : EachResult τ :=
  let r := rb_smbdir_rewind T self m
  match r.1 with
  | Except.error e => { outcome := some (Except.error e), yielded := [], final := r.2 }
  | Except.ok _ =>
    if block_given then
      rb_smbdir_each_loop T self fuel r.2
    else
      { outcome := some (Except.ok (VALUE.enumerator self)), yielded := [], final := r.2 }

/-! ## Sequences of method calls -/

/-- The cursor and lifecycle methods a caller may invoke on a handle. -/
inductive Op where
  | read
  | seek (offset : Int)
  | tell
  | rewind
  | close
deriving DecidableEq, Repr

/-- Run one method on the directory object `self`. -/
def Op.exec {τ : Type} (T : Transport τ) (self : Nat) : Op → Machine τ → Result τ
  | Op.read, m => rb_smbdir_read T self m
  | Op.seek o, m => rb_smbdir_seek T self o m
  | Op.tell, m => rb_smbdir_tell T self m
  | Op.rewind, m => rb_smbdir_rewind T self m
  | Op.close, m => rb_smbdir_close T self m

/-- Run the methods one after the other (a raised exception is caught by the
caller, who goes on); gives each call with its outcome, and the last machine. -/
def runOps {τ : Type} (T : Transport τ) (self : Nat) :
    List Op → Machine τ → List (Op × Except RbException VALUE) × Machine τ
  | [], m => ([], m)
  | op :: ops, m =>
    let r := op.exec T self m
    let rest := runOps T self ops r.2
    ((op, r.1) :: rest.1, rest.2)

/-- No `close` of the trace succeeded. -/
def noCloseSucceeded (trace : List (Op × Except RbException VALUE)) : Prop :=
  ∀ p ∈ trace, p.1 = Op.close → ∃ e, p.2 = Except.error e

/-- The caller-side loop of the spec's restartability property: call `read`
until it returns nil, collecting what it returned; `none` when a read raised
or the step budget ran out first. -/
def drainReads {τ : Type} (T : Transport τ) (self : Nat) :
    Nat → Machine τ → List VALUE → Option (List VALUE) × Machine τ
  | 0, m, _ => (none, m)
  | fuel + 1, m, acc =>
    match rb_smbdir_read T self m with
    | (Except.error _, m1) => (none, m1)
    | (Except.ok VALUE.Qnil, m1) => (some acc, m1)
    | (Except.ok v, m1) => drainReads T self fuel m1 (acc ++ [v])

/-- The spec's wording of restartability, caller side: `rewind()`, then drain
`read()` until None. -/
def rewindThenDrain {τ : Type} (T : Transport τ) (self : Nat) (fuel : Nat)
    (m : Machine τ) : Option (List VALUE) × Machine τ :=
  match rb_smbdir_rewind T self m with
  | (Except.error _, m1) => (none, m1)
  | (Except.ok _, m1) => drainReads T self fuel m1 []

/-- The DirectoryEntry the spec describes for a raw entry read from a handle
with URL `u`: the raw name, the type code, `u + "/" + name`, and the first
`commentlen` bytes of the comment. -/
def entryFor (u : String) (enc : Option Encoding) (e : smbc_dirent) : DirEntry :=
  { name := { bytes := e.name, enc := enc },
    type := e.smbc_type,
    url := { bytes := u ++ "/" ++ e.name, enc := some Encoding.ascii8bit },
    comment := { bytes := String.mk (e.comment.data.take e.commentlen),
                 enc := some Encoding.ascii8bit } }

/-! ## Transports used as test doubles -/

/-- State of the in-memory directory: the entries it serves and the cursor. -/
structure MockDir where
  entries : List smbc_dirent
  pos : Nat
deriving DecidableEq, Repr

/-- An error-free in-memory transport: `readdir` serves the entries in order
and then NULL without touching `errno`; `telldir` reports the cursor;
`lseekdir` accepts the offsets `0 .. length` and rejects the others with
EINVAL (22); `opendir` hands out the stream at address 1 with the cursor at
the start; `closedir` succeeds. -/
def mockTransport : Transport MockDir where
  opendir t _ _ := (some 1, none, { t with pos := 0 })
  closedir t _ _ := (0, none, t)
  readdir t _ _ :=
    match t.entries.get? t.pos with
    | some e => (some e, none, { t with pos := t.pos + 1 })
    | none => (none, none, t)
  telldir t _ _ := ((t.pos : Int), none, t)
  lseekdir t _ _ o :=
    if 0 ≤ o ∧ o ≤ (t.entries.length : Int) then (0, none, { t with pos := o.toNat })
    else (-1, some 22, t)

/-- A transport with fixed answers: `closedir`, `telldir` and `lseekdir`
return `ret`, `opendir` and `readdir` return NULL, and each call assigns
`errno` as given by `err`. -/
def fixedTransport (ret : Int) (err : Option Int) : Transport Unit where
  opendir t _ _ := (none, err, t)
  closedir t _ _ := (ret, err, t)
  readdir t _ _ := (none, err, t)
  telldir t _ _ := (ret, err, t)
  lseekdir t _ _ _ := (ret, err, t)

/-- A reference transport: whenever `lseekdir` accepts an offset (returns
something other than -1), the next `telldir` reports that offset, and when the
offset is the sentinel -1 it does so with `errno` still zero. -/
def ReferenceTransport {τ : Type} (T : Transport τ) : Prop :=
  ∀ (t : τ) (ctx dir : Ptr) (o : Int),
    (T.lseekdir t ctx dir o).1 ≠ -1 →
      (T.telldir (T.lseekdir t ctx dir o).2.2 ctx dir).1 = o ∧
      (o = -1 → errnoAfter 0 (T.telldir (T.lseekdir t ctx dir o).2.2 ctx dir).2.1 = 0)

/-- The directory object `self` is open on URL `u`, with name encoding `enc`,
over the in-memory transport serving the entries `es` (the cursor may be
anywhere). -/
def ServesOpen (es : List smbc_dirent) (u : String) (enc : Option Encoding) (self : Nat)
    (m : Machine MockDir) : Prop :=
  (m.file self).smbcfile ≠ none ∧ (m.file self).url = some u ∧ (m.file self).enc = enc ∧
    m.transport.entries = es

/-- A transport whose directory, for the stream `dir` of context `ctx`, has
the unchanging contents `es` and reports no errors.  `inv` singles out the
transport states in which the stream is live and `cursor` reads the stream's
position off such a state.  In every such state: `lseekdir` to offset 0 is
accepted (any return value but -1) and puts the cursor at 0; `readdir` with
the cursor on an entry of `es` returns that entry and moves the cursor one
further; `readdir` with the cursor past the last entry returns NULL with
`errno` still zero.  Nothing is asked of the `errno` a successful call leaves,
nor of the value `lseekdir` returns on success. -/
def UnchangingErrorFree {τ : Type} (T : Transport τ) (ctx dir : Ptr) (es : List smbc_dirent)
    (inv : τ → Prop) (cursor : τ → Nat) : Prop :=
  (∀ t, inv t →
    (T.lseekdir t ctx dir 0).1 ≠ -1 ∧ inv (T.lseekdir t ctx dir 0).2.2 ∧
      cursor (T.lseekdir t ctx dir 0).2.2 = 0) ∧
  (∀ t e, inv t → es.get? (cursor t) = some e →
    (T.readdir t ctx dir).1 = some e ∧ inv (T.readdir t ctx dir).2.2 ∧
      cursor (T.readdir t ctx dir).2.2 = cursor t + 1) ∧
  (∀ t, inv t → es.get? (cursor t) = none →
    (T.readdir t ctx dir).1 = none ∧ errnoAfter 0 (T.readdir t ctx dir).2.1 = 0 ∧
      inv (T.readdir t ctx dir).2.2)

/-- The directory object `self` is open on URL `u`, with name encoding `enc`,
on the stream `dir` of context `ctx`, and the transport is in a state
satisfying `inv` (the cursor may be anywhere). -/
def HandleOver {τ : Type} (ctx dir : Ptr) (u : String) (enc : Option Encoding)
    (inv : τ → Prop) (self : Nat) (m : Machine τ) : Prop :=
  (m.file self).smbcfile = dir ∧ dir ≠ none ∧ (m.file self).smbcctx = ctx ∧
    (m.file self).url = some u ∧ (m.file self).enc = enc ∧ inv m.transport

/-- An error-free in-memory transport that nevertheless leaves `errno` set to
11 (EAGAIN) after every successful `readdir` and `lseekdir`, and whose
`lseekdir` returns 5 on success; it accepts offset 0 only. -/
def noisyTransport : Transport MockDir where
  opendir t _ _ := (some 1, none, { t with pos := 0 })
  closedir t _ _ := (0, none, t)
  readdir t _ _ :=
    match t.entries.get? t.pos with
    | some e => (some e, some 11, { t with pos := t.pos + 1 })
    | none => (none, none, t)
  telldir t _ _ := ((t.pos : Int), none, t)
  lseekdir t _ _ o :=
    if o = 0 then (5, some 11, { t with pos := 0 })
    else (-1, some 22, t)

/-- The two raw entries of the spec's end-to-end scenario. -/
def scenarioEntries : List smbc_dirent :=
  [ { smbc_type := SMBC_FILE, commentlen := 0, comment := "", name := "a.txt" },
    { smbc_type := SMBC_DIR, commentlen := 0, comment := "", name := "sub" } ]

/-- A machine in which nothing is open: session 0 has context 100 and an
empty list, every directory struct is as allocated. -/
def freshMachine {τ : Type} (t : τ) : Machine τ :=
  { errno := 0, transport := t,
    smb := fun _ => { smbcctx := some 100, smbfile_data_list := [] },
    file := fun _ => rb_smbdir_data_alloc,
    calls := [] }

/-- A machine in which the directory object 1 of session 0 is open on the
URL `u` with transport stream 7, and linked into the session's list. -/
def openMachineAt {τ : Type} (u : String) (t : τ) : Machine τ :=
  { errno := 0, transport := t,
    smb := fun _ => { smbcctx := some 100, smbfile_data_list := [1] },
    file := store (fun _ => rb_smbdir_data_alloc) 1
      ({ smb_obj := VALUE.obj 0, smb_data := some 0, smbcctx := some 100,
         smbcfile := some 7, url := some u, enc := some Encoding.utf8 }),
    calls := [] }

/-- The same, open on `smb://host/share`. -/
def openMachine {τ : Type} (t : τ) : Machine τ :=
  openMachineAt "smb://host/share" t

/-- A raw entry whose comment buffer is longer than its `commentlen`. -/
def commentedEntry : smbc_dirent :=
  { smbc_type := SMBC_FILE_SHARE, commentlen := 4, comment := "Docs of the team",
    name := "docs" }


/-! ## Frame and unfolding lemmas -/

theorem store_same {α : Type} (f : Nat → α) (a : Nat) (v : α) : store f a v a = v := by
  simp [store]

theorem store_other {α : Type} (f : Nat → α) (a b : Nat) (v : α) (h : b ≠ a) :
    store f a v b = f b := by
  simp [store, h]

theorem mem_DLIST_REMOVE (list : List Nat) (p q : Nat) :
    q ∈ DLIST_REMOVE list p ↔ q ∈ list ∧ q ≠ p := by
  simp [DLIST_REMOVE]

theorem rb_smbdir_read_frame {τ : Type} (T : Transport τ) (self : Nat) (m : Machine τ) :
    (rb_smbdir_read T self m).2.file = m.file ∧ (rb_smbdir_read T self m).2.smb = m.smb := by
  unfold rb_smbdir_read
  dsimp only
  repeat' split
  all_goals exact ⟨rfl, rfl⟩

theorem rb_smbdir_tell_frame {τ : Type} (T : Transport τ) (self : Nat) (m : Machine τ) :
    (rb_smbdir_tell T self m).2.file = m.file ∧ (rb_smbdir_tell T self m).2.smb = m.smb := by
  unfold rb_smbdir_tell
  dsimp only
  repeat' split
  all_goals exact ⟨rfl, rfl⟩

theorem rb_smbdir_seek_frame {τ : Type} (T : Transport τ) (self : Nat) (o : Int)
    (m : Machine τ) :
    (rb_smbdir_seek T self o m).2.file = m.file ∧ (rb_smbdir_seek T self o m).2.smb = m.smb := by
  unfold rb_smbdir_seek
  dsimp only
  repeat' split
  all_goals exact ⟨rfl, rfl⟩

/-- On a closed handle every method raises the closed-handle error and leaves
the machine as it was. -/
theorem exec_closed {τ : Type} (T : Transport τ) (self : Nat) (op : Op) (m : Machine τ)
    (h : (m.file self).smbcfile = none) :
    op.exec T self m = (Except.error closedHandle, m) := by
  cases op <;>
    simp [Op.exec, rb_smbdir_read, rb_smbdir_seek, rb_smbdir_tell, rb_smbdir_rewind,
      rb_smbdir_close, RB_SMBFILE_DATA_CLOSED, h]

/-- What `close` does on an open handle, in one equation. -/
theorem rb_smbdir_close_open {τ : Type} (T : Transport τ) (self : Nat) (m : Machine τ)
    (h : (m.file self).smbcfile ≠ none) :
    rb_smbdir_close T self m =
      (if (T.closedir m.transport (m.file self).smbcctx (m.file self).smbcfile).1 ≠ 0 then
        (Except.error (rb_sys_fail
            (errnoAfter m.errno
              (T.closedir m.transport (m.file self).smbcctx (m.file self).smbcfile).2.1)
            (m.file self).url),
          { m with
            transport :=
              (T.closedir m.transport (m.file self).smbcctx (m.file self).smbcfile).2.2,
            errno := errnoAfter m.errno
              (T.closedir m.transport (m.file self).smbcctx (m.file self).smbcfile).2.1,
            calls := m.calls ++ [Call.closedir (m.file self).smbcctx (m.file self).smbcfile] })
      else
        (Except.ok (VALUE.obj self),
          { transport :=
              (T.closedir m.transport (m.file self).smbcctx (m.file self).smbcfile).2.2,
            errno := errnoAfter m.errno
              (T.closedir m.transport (m.file self).smbcctx (m.file self).smbcfile).2.1,
            calls := m.calls ++ [Call.closedir (m.file self).smbcctx (m.file self).smbcfile],
            file := store m.file self
              ({ (m.file self) with smbcctx := none, smbcfile := none }),
            smb :=
              match (m.file self).smb_data with
              | none => m.smb
              | some sp =>
                store m.smb sp
                  ({ (m.smb sp) with
                     smbfile_data_list := DLIST_REMOVE (m.smb sp).smbfile_data_list self }) })) := by
  unfold rb_smbdir_close rb_smbdir_close_and_deref_by_data rb_smbdir_close_by_data
  simp only [RB_SMBFILE_DATA_CLOSED, h, if_false]
  by_cases hr : (T.closedir m.transport (m.file self).smbcctx (m.file self).smbcfile).1 = 0
  · simp only [hr, ne_eq, not_true_eq_false, if_false]
    cases hsd : (m.file self).smb_data <;> rfl
  · simp only [ne_eq, hr, not_false_eq_true, if_true]

/-- A `close` that raised left the structs as they were. -/
theorem rb_smbdir_close_error_frame {τ : Type} (T : Transport τ) (self : Nat) (m : Machine τ)
    (e : RbException) (h : (rb_smbdir_close T self m).1 = Except.error e) :
    (rb_smbdir_close T self m).2.file = m.file ∧ (rb_smbdir_close T self m).2.smb = m.smb := by
  by_cases hc : (m.file self).smbcfile = none
  · have := exec_closed T self Op.close m hc
    simp only [Op.exec] at this
    rw [this]
    exact ⟨rfl, rfl⟩
  · rw [rb_smbdir_close_open T self m hc] at h ⊢
    split at h
    · rename_i hr
      rw [if_pos hr]
      exact ⟨rfl, rfl⟩
    · cases h

/-- A `close` that returned left the handle closed. -/
theorem rb_smbdir_close_ok_closed {τ : Type} (T : Transport τ) (self : Nat) (m : Machine τ)
    (v : VALUE) (h : (rb_smbdir_close T self m).1 = Except.ok v) :
    ((rb_smbdir_close T self m).2.file self).smbcfile = none := by
  by_cases hc : (m.file self).smbcfile = none
  · have := exec_closed T self Op.close m hc
    simp only [Op.exec] at this
    rw [this] at h
    cases h
  · rw [rb_smbdir_close_open T self m hc] at h ⊢
    split at h
    · cases h
    · rename_i hr
      rw [if_neg hr]
      simp [store_same]

/-- A method that is not a successful `close` leaves the directory structs as
they were. -/
theorem exec_file_frame {τ : Type} (T : Transport τ) (self : Nat) (op : Op) (m : Machine τ)
    (h : op = Op.close → ∃ e, (op.exec T self m).1 = Except.error e) :
    (op.exec T self m).2.file = m.file := by
  cases op with
  | read => exact (rb_smbdir_read_frame T self m).1
  | seek o => exact (rb_smbdir_seek_frame T self o m).1
  | tell => exact (rb_smbdir_tell_frame T self m).1
  | rewind => exact (rb_smbdir_seek_frame T self 0 m).1
  | close =>
    obtain ⟨e, he⟩ := h rfl
    exact (rb_smbdir_close_error_frame T self m e he).1

/-- A run in which no `close` succeeded leaves the directory structs as they
were. -/
theorem runOps_file_frame {τ : Type} (T : Transport τ) (self : Nat) (ops : List Op) :
    ∀ m : Machine τ, noCloseSucceeded (runOps T self ops m).1 →
      (runOps T self ops m).2.file = m.file := by
  induction ops with
  | nil => intro m _; rfl
  | cons op ops ih =>
    intro m h
    simp only [runOps] at h ⊢
    have h1 : (op.exec T self m).2.file = m.file := by
      apply exec_file_frame
      intro hop
      exact h (op, (op.exec T self m).1) (List.mem_cons_self _ _) hop
    have h2 : noCloseSucceeded (runOps T self ops (op.exec T self m).2).1 := by
      intro p hp
      exact h p (List.mem_cons_of_mem _ hp)
    rw [ih _ h2, h1]

/-- On a closed handle every method of a run raises the closed-handle error,
and the machine does not change. -/
theorem runOps_closed {τ : Type} (T : Transport τ) (self : Nat) (ops : List Op) :
    ∀ m : Machine τ, (m.file self).smbcfile = none →
      (∀ p ∈ (runOps T self ops m).1, p.2 = Except.error closedHandle) ∧
      (runOps T self ops m).2 = m := by
  induction ops with
  | nil => intro m _; exact ⟨by simp [runOps], rfl⟩
  | cons op ops ih =>
    intro m h
    simp only [runOps, exec_closed T self op m h]
    obtain ⟨h1, h2⟩ := ih m h
    refine ⟨?_, h2⟩
    intro p hp
    rcases List.mem_cons.mp hp with rfl | hp
    · rfl
    · exact h1 p hp

/-- What `Net::SMB::Dir.new(smb, url)` without a block does when the transport
hands out a stream. -/
theorem rb_smbdir_initialize_open {τ : Type} (T : Transport τ) (self smb_obj : Nat)
    (url : String) (m : Machine τ) (hurl : Char.ofNat 0 ∉ url.data)
    (hopen : (T.opendir m.transport (m.smb smb_obj).smbcctx url).1 ≠ none) :
    rb_smbdir_initialize T self smb_obj url none m =
      (Except.ok (VALUE.obj self),
        { transport := (T.opendir m.transport (m.smb smb_obj).smbcctx url).2.2,
          errno := errnoAfter m.errno (T.opendir m.transport (m.smb smb_obj).smbcctx url).2.1,
          calls := m.calls ++ [Call.opendir (m.smb smb_obj).smbcctx url],
          smb := m.smb,
          file := store (store m.file self
              ({ (m.file self) with
                 smbcfile := (T.opendir m.transport (m.smb smb_obj).smbcctx url).1 })) self
            ({ smb_obj := VALUE.obj smb_obj, smb_data := some smb_obj,
               smbcctx := (m.smb smb_obj).smbcctx,
               smbcfile := (T.opendir m.transport (m.smb smb_obj).smbcctx url).1,
               url := some url, enc := some Encoding.utf8 }) }) := by
  unfold rb_smbdir_initialize
  simp only [hurl, hopen, if_false, store_same]

theorem rb_smbdir_closed_p_eq {τ : Type} (self : Nat) (m : Machine τ) :
    (rb_smbdir_closed_p self m = VALUE.Qtrue ↔ (m.file self).smbcfile = none) ∧
    (rb_smbdir_closed_p self m = VALUE.Qfalse ↔ (m.file self).smbcfile ≠ none) := by
  unfold rb_smbdir_closed_p
  by_cases h : (m.file self).smbcfile = none <;> simp [h]

/-! ## The claims -/

/-- C1: a handle produced by a successful open (the transport's opendir
returned a non-null stream) is not closed; `closed?` stays false across any
sequence of read/seek/tell/rewind calls and failed closes; once a close
succeeds, `closed?` is true and every later read, seek, tell (and rewind,
close) raises the closed-handle error instead of returning anything.  With a
block, `new` runs the block on the machine the plain open leaves, in which the
handle is open, and then closes the handle. -/
theorem closed_p_lifecycle {τ : Type} (T : Transport τ) (self smb_obj : Nat) (url : String)
    (m : Machine τ) (hurl : Char.ofNat 0 ∉ url.data)
    (hopen : (T.opendir m.transport (m.smb smb_obj).smbcctx url).1 ≠ none) :
    ( rb_smbdir_initialize T self smb_obj url none m).1 = Except.ok (VALUE.obj self) ∧
    rb_smbdir_closed_p self ( rb_smbdir_initialize T self smb_obj url none m).2 = VALUE.Qfalse ∧
    (∀ ops : List Op,
      let m1 := (runOps T self ops ( rb_smbdir_initialize T self smb_obj url none m).2).2
      noCloseSucceeded
          (runOps T self ops ( rb_smbdir_initialize T self smb_obj url none m).2).1 →
        rb_smbdir_closed_p self m1 = VALUE.Qfalse ∧
        ((rb_smbdir_close T self m1).1 = Except.ok (VALUE.obj self) →
          let m2 := (rb_smbdir_close T self m1).2
          rb_smbdir_closed_p self m2 = VALUE.Qtrue ∧
          ∀ later : List Op,
            (∀ p ∈ (runOps T self later m2).1, p.2 = Except.error closedHandle) ∧
            rb_smbdir_closed_p self (runOps T self later m2).2 = VALUE.Qtrue)) ∧
    ∀ b : VALUE → Machine τ → Result τ,
      rb_smbdir_initialize T self smb_obj url (some b) m =
        rb_ensure (b (VALUE.obj self)) (rb_smbdir_close T self)
          ( rb_smbdir_initialize T self smb_obj url none m).2 := by
  have hinit := rb_smbdir_initialize_open T self smb_obj url m hurl hopen
  have hfile : (( rb_smbdir_initialize T self smb_obj url none m).2.file self).smbcfile ≠ none := by
    rw [hinit]
    simpa [store_same] using hopen
  refine ⟨by rw [hinit], ((rb_smbdir_closed_p_eq self _).2).2 hfile, ?_, ?_⟩
  swap
  · intro b
    unfold rb_smbdir_initialize
    simp only [hurl, hopen, if_false]
  intro ops m1 hno
  have hm1 : m1.file = ( rb_smbdir_initialize T self smb_obj url none m).2.file :=
    runOps_file_frame T self ops _ hno
  refine ⟨((rb_smbdir_closed_p_eq self _).2).2 (by rw [hm1]; exact hfile), ?_⟩
  intro hclose m2
  have hc : (m2.file self).smbcfile = none :=
    rb_smbdir_close_ok_closed T self m1 _ hclose
  refine ⟨((rb_smbdir_closed_p_eq self _).1).2 hc, ?_⟩
  intro later
  obtain ⟨h1, h2⟩ := runOps_closed T self later m2 hc
  refine ⟨h1, ?_⟩
  rw [h2]
  exact ((rb_smbdir_closed_p_eq self _).1).2 hc

/-- C1 at a concrete input: directory object 1 opened on `smb://host/share`
over the in-memory transport, then `read, tell, seek 1, rewind`, then `close`,
then `read, seek 0, tell`. -/
theorem closed_p_lifecycle_witness :
    (Char.ofNat 0 ∉ "smb://host/share".data ∧
      (mockTransport.opendir (freshMachine (MockDir.mk scenarioEntries 0)).transport
        ((freshMachine (MockDir.mk scenarioEntries 0)).smb 0).smbcctx
        "smb://host/share").1 ≠ none) ∧
    noCloseSucceeded
      (runOps mockTransport 1 [Op.read, Op.tell, Op.seek 1, Op.rewind]
        ( rb_smbdir_initialize mockTransport 1 0 "smb://host/share" none
          (freshMachine (MockDir.mk scenarioEntries 0))).2).1 ∧
    rb_smbdir_closed_p 1
      (runOps mockTransport 1 [Op.read, Op.tell, Op.seek 1, Op.rewind]
        ( rb_smbdir_initialize mockTransport 1 0 "smb://host/share" none
          (freshMachine (MockDir.mk scenarioEntries 0))).2).2 = VALUE.Qfalse ∧
    (∀ p ∈ (runOps mockTransport 1 [Op.read, Op.seek 0, Op.tell]
        (rb_smbdir_close mockTransport 1
          (runOps mockTransport 1 [Op.read, Op.tell, Op.seek 1, Op.rewind]
            ( rb_smbdir_initialize mockTransport 1 0 "smb://host/share" none
              (freshMachine (MockDir.mk scenarioEntries 0))).2).2).2).1,
      p.2 = Except.error closedHandle) := by
  have hurl : Char.ofNat 0 ∉ "smb://host/share".data := by decide
  have hopen : (mockTransport.opendir (freshMachine (MockDir.mk scenarioEntries 0)).transport
        ((freshMachine (MockDir.mk scenarioEntries 0)).smb 0).smbcctx
        "smb://host/share").1 ≠ none := by decide
  have hno : noCloseSucceeded
      (runOps mockTransport 1 [Op.read, Op.tell, Op.seek 1, Op.rewind]
        ( rb_smbdir_initialize mockTransport 1 0 "smb://host/share" none
          (freshMachine (MockDir.mk scenarioEntries 0))).2).1 := by
    intro p hp hclose
    simp only [runOps, List.mem_cons, List.mem_singleton, List.not_mem_nil, or_false] at hp
    rcases hp with rfl | rfl | rfl | rfl <;> cases hclose
  have h := (closed_p_lifecycle mockTransport 1 0 "smb://host/share"
    (freshMachine (MockDir.mk scenarioEntries 0)) hurl hopen).2.2.1
    [Op.read, Op.tell, Op.seek 1, Op.rewind] hno
  exact ⟨⟨hurl, hopen⟩, hno, h.1, ((h.2 rfl).2 [Op.read, Op.seek 0, Op.tell]).1⟩


/-- C2: on an open handle with URL `u`, `read` tells end-of-stream from
failure by `errno`: a null entry with `errno` non-zero raises the system-call
error carrying `u` (it does not return nil); a null entry with `errno` zero
returns nil; a non-null entry returns a DirectoryEntry. -/
theorem read_distinguishes_end_from_error {τ : Type} (T : Transport τ) (self : Nat)
    (m : Machine τ) (u : String)
    (hopen : (m.file self).smbcfile ≠ none) (hurl : (m.file self).url = some u) :
    let r := T.readdir m.transport (m.file self).smbcctx (m.file self).smbcfile
    (r.1 = none → errnoAfter 0 r.2.1 ≠ 0 →
      (rb_smbdir_read T self m).1 =
        Except.error (RbException.systemCallError (errnoAfter 0 r.2.1) (some u)) ∧
      (rb_smbdir_read T self m).1 ≠ Except.ok VALUE.Qnil) ∧
    (r.1 = none → errnoAfter 0 r.2.1 = 0 →
      (rb_smbdir_read T self m).1 = Except.ok VALUE.Qnil) ∧
    (r.1 ≠ none → ∃ e : DirEntry, (rb_smbdir_read T self m).1 = Except.ok (VALUE.dirEntry e)) := by
  intro r
  refine ⟨?_, ?_, ?_⟩
  · intro hnull herr
    have h : (rb_smbdir_read T self m).1 =
        Except.error (RbException.systemCallError (errnoAfter 0 r.2.1) (some u)) := by
      unfold rb_smbdir_read
      simp only [RB_SMBFILE_DATA_CLOSED, hopen, if_false]
      simp only [r] at hnull herr
      simp [hnull, herr, rb_sys_fail, hurl]
    rw [h]
    exact ⟨rfl, by intro hc; cases hc⟩
  · intro hnull herr
    unfold rb_smbdir_read
    simp only [RB_SMBFILE_DATA_CLOSED, hopen, if_false]
    simp only [r] at hnull herr
    simp [hnull, herr]
  · intro hsome
    unfold rb_smbdir_read
    simp only [RB_SMBFILE_DATA_CLOSED, hopen, if_false]
    simp only [r] at hsome
    cases hd : (T.readdir m.transport (m.file self).smbcctx (m.file self).smbcfile).1 with
    | none => exact absurd hd hsome
    | some d => simp [hurl, rb_str_new2]

/-- C2 at concrete inputs: a transport whose readdir returns NULL with errno 5
(EIO) makes `read` raise with the URL; one whose readdir returns NULL and
leaves errno alone makes `read` return nil. -/
theorem read_distinguishes_end_from_error_witness :
    ((openMachine ()).file 1).smbcfile ≠ none ∧
    ((openMachine ()).file 1).url = some "smb://host/share" ∧
    (rb_smbdir_read (fixedTransport (-1) (some 5)) 1 (openMachine ())).1 =
      Except.error (RbException.systemCallError 5 (some "smb://host/share")) ∧
    (rb_smbdir_read (fixedTransport (-1) none) 1 (openMachine ())).1 = Except.ok VALUE.Qnil :=
  ⟨by decide, rfl,
    ((read_distinguishes_end_from_error (fixedTransport (-1) (some 5)) 1 (openMachine ())
      "smb://host/share" (by decide) rfl).1 rfl (by decide)).1,
    (read_distinguishes_end_from_error (fixedTransport (-1) none) 1 (openMachine ())
      "smb://host/share" (by decide) rfl).2.1 rfl rfl⟩

/-- C4: on an open handle with URL `u`, for a raw entry returned by the
transport, `read` returns a DirectoryEntry whose name is the raw name, whose
type is the raw type code, whose URL is `u`, then "/", then the raw name (as
is, whatever `u` ends in), and whose comment is the first `commentlen` bytes of
the raw comment (empty when `commentlen` is 0). -/
theorem read_entry_fields {τ : Type} (T : Transport τ) (self : Nat) (m : Machine τ)
    (u : String) (d : smbc_dirent)
    (hopen : (m.file self).smbcfile ≠ none) (hurl : (m.file self).url = some u)
    (hread : (T.readdir m.transport (m.file self).smbcctx (m.file self).smbcfile).1 = some d) :
    ∃ e : DirEntry,
      (rb_smbdir_read T self m).1 = Except.ok (VALUE.dirEntry e) ∧
      e.name.bytes = d.name ∧
      e.type = d.smbc_type ∧
      e.url.bytes = u ++ "/" ++ d.name ∧
      e.comment.bytes = String.mk (d.comment.data.take d.commentlen) ∧
      (d.commentlen = 0 → e.comment.bytes = "") := by
  refine ⟨entryFor u (m.file self).enc d, ?_, rfl, rfl, rfl, rfl, ?_⟩
  · unfold rb_smbdir_read
    simp only [RB_SMBFILE_DATA_CLOSED, hopen, if_false]
    simp [hread, hurl, rb_str_new2, entryFor, rb_external_str_new_with_enc, rb_str_cat2,
      rb_str_new]
  · intro h0
    simp [entryFor, h0]

/-- C4 at a concrete input: a handle whose URL already ends in "/" and a raw
entry with a four-byte comment. -/
theorem read_entry_fields_witness :
    ((openMachineAt "smb://host/" (MockDir.mk [commentedEntry] 0)).file 1).smbcfile ≠ none ∧
    ∃ e : DirEntry,
      (rb_smbdir_read mockTransport 1
        (openMachineAt "smb://host/" (MockDir.mk [commentedEntry] 0))).1 =
          Except.ok (VALUE.dirEntry e) ∧
      e.name.bytes = "docs" ∧ e.type = 3 ∧ e.url.bytes = "smb://host//docs" ∧
      e.comment.bytes = "Docs" := by
  refine ⟨by decide, ?_⟩
  obtain ⟨e, h1, h2, h3, h4, h5, _⟩ :=
    read_entry_fields mockTransport 1
      (openMachineAt "smb://host/" (MockDir.mk [commentedEntry] 0)) "smb://host/"
      commentedEntry (by decide) rfl rfl
  exact ⟨e, h1, h2, h3, h4, h5⟩


/-- C5: on an open handle whose transport close succeeds, the first `close`
returns and the second raises the closed-handle error; the second makes no
transport call (the machine, its call record included, is left exactly as the
first close left it, with the single closedir call) and the handle stays
closed. -/
theorem close_twice {τ : Type} (T : Transport τ) (self : Nat) (m : Machine τ)
    (hopen : (m.file self).smbcfile ≠ none)
    (hok : (T.closedir m.transport (m.file self).smbcctx (m.file self).smbcfile).1 = 0) :
    (rb_smbdir_close T self m).1 = Except.ok (VALUE.obj self) ∧
    (rb_smbdir_close T self (rb_smbdir_close T self m).2).1 = Except.error closedHandle ∧
    (rb_smbdir_close T self (rb_smbdir_close T self m).2).2 = (rb_smbdir_close T self m).2 ∧
    (rb_smbdir_close T self (rb_smbdir_close T self m).2).2.calls =
      m.calls ++ [Call.closedir (m.file self).smbcctx (m.file self).smbcfile] ∧
    rb_smbdir_closed_p self (rb_smbdir_close T self (rb_smbdir_close T self m).2).2 =
      VALUE.Qtrue := by
  have h1 : (rb_smbdir_close T self m).1 = Except.ok (VALUE.obj self) := by
    rw [rb_smbdir_close_open T self m hopen]
    simp [hok]
  have hc : ((rb_smbdir_close T self m).2.file self).smbcfile = none :=
    rb_smbdir_close_ok_closed T self m _ h1
  have h2 := exec_closed T self Op.close (rb_smbdir_close T self m).2 hc
  simp only [Op.exec] at h2
  have hcalls : (rb_smbdir_close T self m).2.calls =
      m.calls ++ [Call.closedir (m.file self).smbcctx (m.file self).smbcfile] := by
    rw [rb_smbdir_close_open T self m hopen]
    simp [hok]
  refine ⟨h1, ?_, ?_, ?_, ?_⟩
  · rw [h2]
  · rw [h2]
  · rw [h2]; exact hcalls
  · rw [h2]; exact ((rb_smbdir_closed_p_eq self _).1).2 hc

/-- C5 at a concrete input: directory object 1, open over the in-memory
transport, closed twice. -/
theorem close_twice_witness :
    ((openMachine (MockDir.mk scenarioEntries 0)).file 1).smbcfile ≠ none ∧
    (rb_smbdir_close mockTransport 1 (openMachine (MockDir.mk scenarioEntries 0))).1 =
      Except.ok (VALUE.obj 1) ∧
    (rb_smbdir_close mockTransport 1
      (rb_smbdir_close mockTransport 1 (openMachine (MockDir.mk scenarioEntries 0))).2).1 =
      Except.error closedHandle ∧
    (rb_smbdir_close mockTransport 1
      (rb_smbdir_close mockTransport 1 (openMachine (MockDir.mk scenarioEntries 0))).2).2.calls =
      [Call.closedir (some 100) (some 7)] :=
  ⟨by decide,
    (close_twice mockTransport 1 (openMachine (MockDir.mk scenarioEntries 0))
      (by decide) rfl).1,
    (close_twice mockTransport 1 (openMachine (MockDir.mk scenarioEntries 0))
      (by decide) rfl).2.1,
    (close_twice mockTransport 1 (openMachine (MockDir.mk scenarioEntries 0))
      (by decide) rfl).2.2.2.1⟩

/-- C7: on an open handle with URL `u` belonging to the session struct at
`sp`, `close` calls the transport's closedir exactly once.  If that returns 0,
the handle's stream and context pointers are null, the handle is closed and it
is no longer in the session's list.  If it returns non-zero, `close` raises the
system-call error carrying `u`, and the directory structs, the open state and
the session's list are unchanged. -/
theorem close_outcomes {τ : Type} (T : Transport τ) (self sp : Nat) (m : Machine τ)
    (u : String)
    (hopen : (m.file self).smbcfile ≠ none) (hurl : (m.file self).url = some u)
    (hsess : (m.file self).smb_data = some sp) :
    let r := T.closedir m.transport (m.file self).smbcctx (m.file self).smbcfile
    let m1 := (rb_smbdir_close T self m).2
    m1.calls = m.calls ++ [Call.closedir (m.file self).smbcctx (m.file self).smbcfile] ∧
    (r.1 = 0 →
      (rb_smbdir_close T self m).1 = Except.ok (VALUE.obj self) ∧
      (m1.file self).smbcfile = none ∧ (m1.file self).smbcctx = none ∧
      rb_smbdir_closed_p self m1 = VALUE.Qtrue ∧
      (m1.smb sp).smbfile_data_list = DLIST_REMOVE (m.smb sp).smbfile_data_list self ∧
      self ∉ (m1.smb sp).smbfile_data_list) ∧
    (r.1 ≠ 0 →
      (rb_smbdir_close T self m).1 =
        Except.error (RbException.systemCallError (errnoAfter m.errno r.2.1) (some u)) ∧
      m1.file = m.file ∧ m1.smb = m.smb ∧
      rb_smbdir_closed_p self m1 = VALUE.Qfalse ∧
      (self ∈ (m1.smb sp).smbfile_data_list ↔ self ∈ (m.smb sp).smbfile_data_list)) := by
  intro r m1
  have heq := rb_smbdir_close_open T self m hopen
  refine ⟨?_, ?_, ?_⟩
  · simp only [m1, heq]
    split <;> rfl
  · intro h0
    simp only [r] at h0
    have hm1 : m1.file = store m.file self
          ({ (m.file self) with smbcctx := none, smbcfile := none }) ∧
        m1.smb = store m.smb sp
          ({ (m.smb sp) with
             smbfile_data_list := DLIST_REMOVE (m.smb sp).smbfile_data_list self }) := by
      show (rb_smbdir_close T self m).2.file = _ ∧ (rb_smbdir_close T self m).2.smb = _
      rw [heq, if_neg (by simp [h0])]
      refine ⟨rfl, ?_⟩
      simp only [hsess]
    have hcl : (m1.file self).smbcfile = none := by rw [hm1.1, store_same]
    refine ⟨?_, hcl, ?_, ((rb_smbdir_closed_p_eq self _).1).2 hcl, ?_, ?_⟩
    · simp only [heq, h0, ne_eq, not_true_eq_false, if_false]
    · rw [hm1.1, store_same]
    · rw [hm1.2, store_same]
    · rw [hm1.2, store_same]
      simp [mem_DLIST_REMOVE]
  · intro hne
    simp only [r] at hne
    have hm1 : m1.file = m.file ∧ m1.smb = m.smb := by
      show (rb_smbdir_close T self m).2.file = _ ∧ (rb_smbdir_close T self m).2.smb = _
      rw [heq, if_pos hne]
      exact ⟨rfl, rfl⟩
    refine ⟨?_, hm1.1, hm1.2, ?_, ?_⟩
    · simp only [heq, ne_eq, hne, not_false_eq_true, if_true, rb_sys_fail, hurl, r]
    · exact ((rb_smbdir_closed_p_eq self _).2).2 (by rw [hm1.1]; exact hopen)
    · rw [hm1.2]

/-- C7 at concrete inputs: closing directory object 1 over the in-memory
transport (closedir returns 0) and over a transport whose closedir returns -1
with errno 9 (EBADF). -/
theorem close_outcomes_witness :
    ((openMachine ()).file 1).smbcfile ≠ none ∧
    (rb_smbdir_close mockTransport 1 (openMachine (MockDir.mk scenarioEntries 0))).1 =
      Except.ok (VALUE.obj 1) ∧
    ((rb_smbdir_close mockTransport 1 (openMachine (MockDir.mk scenarioEntries 0))).2.smb
      0).smbfile_data_list = [] ∧
    (rb_smbdir_close (fixedTransport (-1) (some 9)) 1 (openMachine ())).1 =
      Except.error (RbException.systemCallError 9 (some "smb://host/share")) ∧
    ((rb_smbdir_close (fixedTransport (-1) (some 9)) 1 (openMachine ())).2.smb
      0).smbfile_data_list = [1] ∧
    rb_smbdir_closed_p 1 (rb_smbdir_close (fixedTransport (-1) (some 9)) 1
      (openMachine ())).2 = VALUE.Qfalse :=
  ⟨by decide,
    ((close_outcomes mockTransport 1 0 (openMachine (MockDir.mk scenarioEntries 0))
      "smb://host/share" (by decide) rfl rfl).2.1 rfl).1,
    ((close_outcomes mockTransport 1 0 (openMachine (MockDir.mk scenarioEntries 0))
      "smb://host/share" (by decide) rfl rfl).2.1 rfl).2.2.2.2.1,
    ((close_outcomes (fixedTransport (-1) (some 9)) 1 0 (openMachine ())
      "smb://host/share" (by decide) rfl rfl).2.2 (by decide)).1,
    by rw [((close_outcomes (fixedTransport (-1) (some 9)) 1 0 (openMachine ())
      "smb://host/share" (by decide) rfl rfl).2.2 (by decide)).2.2.1]; rfl,
    ((close_outcomes (fixedTransport (-1) (some 9)) 1 0 (openMachine ())
      "smb://host/share" (by decide) rfl rfl).2.2 (by decide)).2.2.2.1⟩


/-- Calling `Net::SMB::Dir.new` without a block never touches a session struct: no
path of `rb_smbdir_initialize` links the new handle into a list. -/
theorem rb_smbdir_initialize_smb_frame {τ : Type} (T : Transport τ) (self smb_obj : Nat)
    (url : String) (m : Machine τ) :
    ( rb_smbdir_initialize T self smb_obj url none m).2.smb = m.smb := by
  unfold rb_smbdir_initialize
  dsimp only
  repeat' split
  all_goals rfl

/-- C8 (the code at a failing input): opening `smb://host/share` as directory
object 1 of session 0, whose list is empty, succeeds and leaves the handle
open and pointing at session 0, but the session's list is still empty: the open
handle is not in it. -/
theorem initialize_does_not_register :
    ( rb_smbdir_initialize mockTransport 1 0 "smb://host/share" none
      (freshMachine (MockDir.mk scenarioEntries 0))).1 = Except.ok (VALUE.obj 1) ∧
    rb_smbdir_closed_p 1 ( rb_smbdir_initialize mockTransport 1 0 "smb://host/share" none
      (freshMachine (MockDir.mk scenarioEntries 0))).2 = VALUE.Qfalse ∧
    (( rb_smbdir_initialize mockTransport 1 0 "smb://host/share" none
      (freshMachine (MockDir.mk scenarioEntries 0))).2.file 1).smb_data = some 0 ∧
    (( rb_smbdir_initialize mockTransport 1 0 "smb://host/share" none
      (freshMachine (MockDir.mk scenarioEntries 0))).2.smb 0).smbfile_data_list = [] ∧
    1 ∉ (( rb_smbdir_initialize mockTransport 1 0 "smb://host/share" none
      (freshMachine (MockDir.mk scenarioEntries 0))).2.smb 0).smbfile_data_list :=
  ⟨rfl, rfl, rfl, rfl, by decide⟩

/-- After a `seek` that the transport accepted, `tell` over a reference
transport returns the offset sought. -/
theorem seek_then_tell {τ : Type} (T : Transport τ) (href : ReferenceTransport T)
    (self : Nat) (m : Machine τ) (o : Int)
    (hopen : (m.file self).smbcfile ≠ none)
    (hlong : LONG_MIN ≤ o ∧ o ≤ LONG_MAX)
    (hacc : (T.lseekdir m.transport (m.file self).smbcctx (m.file self).smbcfile o).1 ≠ -1) :
    (rb_smbdir_seek T self o m).1 = Except.ok (VALUE.obj self) ∧
    (rb_smbdir_seek T self o m).2.calls =
      m.calls ++ [Call.lseekdir (m.file self).smbcctx (m.file self).smbcfile o] ∧
    (rb_smbdir_tell T self (rb_smbdir_seek T self o m).2).1 = Except.ok (VALUE.int o) := by
  have hseek : rb_smbdir_seek T self o m =
      (Except.ok (VALUE.obj self),
        { m with
          transport :=
            (T.lseekdir m.transport (m.file self).smbcctx (m.file self).smbcfile o).2.2,
          errno := errnoAfter 0
            (T.lseekdir m.transport (m.file self).smbcctx (m.file self).smbcfile o).2.1,
          calls := m.calls ++
            [Call.lseekdir (m.file self).smbcctx (m.file self).smbcfile o] }) := by
    unfold rb_smbdir_seek
    simp only [RB_SMBFILE_DATA_CLOSED, hopen, if_false, NUM2LONG, hlong, and_self, if_true,
      hacc]
  obtain ⟨h1, h2⟩ := href m.transport (m.file self).smbcctx (m.file self).smbcfile o hacc
  refine ⟨by rw [hseek], by rw [hseek], ?_⟩
  rw [hseek]
  unfold rb_smbdir_tell
  simp only [RB_SMBFILE_DATA_CLOSED, hopen, if_false, h1]
  by_cases ho : o = -1
  · have h3 := h2 ho
    simp [h3]
  · simp [ho]

/-- C9: over a reference transport, for an offset `o` that fits a `long` and
that the transport accepts on an open handle, `seek(o)` passes `o` to the
transport's lseekdir and returns, and `tell` right after it returns `o`.  And
`rewind` is `seek(0)`: when the transport accepts offset 0, `tell` right after
`rewind` returns 0. -/
theorem seek_tell_round_trip {τ : Type} (T : Transport τ) (href : ReferenceTransport T)
    (self : Nat) (m : Machine τ) (o : Int)
    (hopen : (m.file self).smbcfile ≠ none)
    (hlong : LONG_MIN ≤ o ∧ o ≤ LONG_MAX)
    (hacc : (T.lseekdir m.transport (m.file self).smbcctx (m.file self).smbcfile o).1 ≠ -1) :
    ((rb_smbdir_seek T self o m).1 = Except.ok (VALUE.obj self) ∧
      (rb_smbdir_seek T self o m).2.calls =
        m.calls ++ [Call.lseekdir (m.file self).smbcctx (m.file self).smbcfile o] ∧
      (rb_smbdir_tell T self (rb_smbdir_seek T self o m).2).1 = Except.ok (VALUE.int o)) ∧
    rb_smbdir_rewind T self m = rb_smbdir_seek T self 0 m ∧
    ((T.lseekdir m.transport (m.file self).smbcctx (m.file self).smbcfile 0).1 ≠ -1 →
      (rb_smbdir_rewind T self m).1 = Except.ok (VALUE.obj self) ∧
      (rb_smbdir_tell T self (rb_smbdir_rewind T self m).2).1 = Except.ok (VALUE.int 0)) := by
  refine ⟨seek_then_tell T href self m o hopen hlong hacc, rfl, ?_⟩
  intro h0
  have h := seek_then_tell T href self m 0 hopen (by decide) h0
  exact ⟨h.1, h.2.2⟩

/-- The in-memory transport is a reference transport. -/
theorem mockTransport_reference : ReferenceTransport mockTransport := by
  intro t ctx dir o hacc
  simp only [mockTransport] at hacc ⊢
  by_cases h : 0 ≤ o ∧ o ≤ (t.entries.length : Int)
  · simp only [h, and_self, if_true]
    refine ⟨Int.toNat_of_nonneg h.1, ?_⟩
    intro _
    rfl
  · simp [h] at hacc

/-- C9 at a concrete input: `seek(2)` then `tell` on directory object 1 over
the in-memory transport serving two entries. -/
theorem seek_tell_round_trip_witness :
    (((openMachine (MockDir.mk scenarioEntries 0)).file 1).smbcfile ≠ none ∧
      (LONG_MIN ≤ (2 : Int) ∧ (2 : Int) ≤ LONG_MAX)) ∧
    (rb_smbdir_tell mockTransport 1
      (rb_smbdir_seek mockTransport 1 2 (openMachine (MockDir.mk scenarioEntries 0))).2).1 =
      Except.ok (VALUE.int 2) ∧
    (rb_smbdir_tell mockTransport 1
      (rb_smbdir_rewind mockTransport 1 (openMachine (MockDir.mk scenarioEntries 1))).2).1 =
      Except.ok (VALUE.int 0) :=
  ⟨⟨by decide, by decide⟩,
    (seek_tell_round_trip mockTransport mockTransport_reference 1
      (openMachine (MockDir.mk scenarioEntries 0)) 2 (by decide) (by decide)
      (by decide)).1.2.2,
    ((seek_tell_round_trip mockTransport mockTransport_reference 1
      (openMachine (MockDir.mk scenarioEntries 1)) 0 (by decide) (by decide)
      (by decide)).2.2 (by decide)).2⟩

/-- C10: on an open handle, `tell` raises exactly when the transport's telldir
returns -1 and `errno` is non-zero afterwards, and then the error carries the
`errno` and the handle's URL; in every other case `tell` returns the
transport's offset as it is, the value -1 included when `errno` is zero. -/
theorem tell_error_iff {τ : Type} (T : Transport τ) (self : Nat) (m : Machine τ)
    (hopen : (m.file self).smbcfile ≠ none) :
    let r := T.telldir m.transport (m.file self).smbcctx (m.file self).smbcfile
    ((∃ e, (rb_smbdir_tell T self m).1 = Except.error e) ↔
      (r.1 = -1 ∧ errnoAfter 0 r.2.1 ≠ 0)) ∧
    (r.1 = -1 ∧ errnoAfter 0 r.2.1 ≠ 0 →
      (rb_smbdir_tell T self m).1 =
        Except.error (RbException.systemCallError (errnoAfter 0 r.2.1) (m.file self).url)) ∧
    (¬ (r.1 = -1 ∧ errnoAfter 0 r.2.1 ≠ 0) →
      (rb_smbdir_tell T self m).1 = Except.ok (VALUE.int r.1)) ∧
    (r.1 = -1 → errnoAfter 0 r.2.1 = 0 →
      (rb_smbdir_tell T self m).1 = Except.ok (VALUE.int (-1))) := by
  intro r
  have herr : r.1 = -1 ∧ errnoAfter 0 r.2.1 ≠ 0 →
      (rb_smbdir_tell T self m).1 =
        Except.error (RbException.systemCallError (errnoAfter 0 r.2.1) (m.file self).url) := by
    intro h
    unfold rb_smbdir_tell
    simp only [RB_SMBFILE_DATA_CLOSED, hopen, if_false]
    rw [if_pos h]
    rfl
  have hok : ¬ (r.1 = -1 ∧ errnoAfter 0 r.2.1 ≠ 0) →
      (rb_smbdir_tell T self m).1 = Except.ok (VALUE.int r.1) := by
    intro h
    unfold rb_smbdir_tell
    simp only [RB_SMBFILE_DATA_CLOSED, hopen, if_false]
    rw [if_neg h]
  refine ⟨⟨?_, ?_⟩, herr, hok, ?_⟩
  · rintro ⟨e, he⟩
    by_contra hn
    rw [hok hn] at he
    cases he
  · intro h
    exact ⟨_, herr h⟩
  · intro h1 h2
    have := hok (by intro hc; exact hc.2 h2)
    rw [this, h1]

/-- C10 at concrete inputs: telldir returning -1 with errno left at zero makes
`tell` return -1; telldir returning -1 with errno 9 makes it raise. -/
theorem tell_error_iff_witness :
    ((openMachine ()).file 1).smbcfile ≠ none ∧
    (rb_smbdir_tell (fixedTransport (-1) none) 1 (openMachine ())).1 =
      Except.ok (VALUE.int (-1)) ∧
    (rb_smbdir_tell (fixedTransport (-1) (some 9)) 1 (openMachine ())).1 =
      Except.error (RbException.systemCallError 9 (some "smb://host/share")) :=
  ⟨by decide,
    (tell_error_iff (fixedTransport (-1) none) 1 (openMachine ()) (by decide)).2.2.2 rfl rfl,
    (tell_error_iff (fixedTransport (-1) (some 9)) 1 (openMachine ()) (by decide)).2.1
      ⟨rfl, by decide⟩⟩


/-! ## Iteration -/

/-- The caller-side drain and the loop of `each` do the same, over any
transport: the drain returns what the loop yields when the loop ends
normally. -/
theorem drainReads_eq_each_loop {τ : Type} (T : Transport τ) (self : Nat) (fuel : Nat) :
    ∀ (m : Machine τ) (acc : List VALUE),
      drainReads T self fuel m acc =
        (match (rb_smbdir_each_loop T self fuel m).outcome with
          | some (Except.ok _) => some (acc ++ (rb_smbdir_each_loop T self fuel m).yielded)
          | _ => none,
         (rb_smbdir_each_loop T self fuel m).final) := by
  induction fuel with
  | zero => intro m acc; rfl
  | succ fuel ih =>
    intro m acc
    unfold drainReads rb_smbdir_each_loop
    rcases hr : rb_smbdir_read T self m with ⟨r1, m1⟩
    cases r1 with
    | error e => rfl
    | ok v =>
      cases v with
      | Qnil => simp
      | Qtrue => simp [ih]
      | Qfalse => simp [ih]
      | obj a => simp [ih]
      | int n => simp [ih]
      | dirEntry e => simp [ih]
      | enumerator r => simp [ih]

/-- Over any transport and from any machine, `rewind` followed by the
caller-side drain returns what `each` yields on that machine when `each` ends
normally, and leaves the same machine. -/
theorem rewindThenDrain_eq_each {τ : Type} (T : Transport τ) (self : Nat) (fuel : Nat)
    (m : Machine τ) :
    rewindThenDrain T self fuel m =
      (match (rb_smbdir_each T self true fuel m).outcome with
        | some (Except.ok _) => some (rb_smbdir_each T self true fuel m).yielded
        | _ => none,
       (rb_smbdir_each T self true fuel m).final) := by
  unfold rewindThenDrain rb_smbdir_each
  rcases hr : rb_smbdir_rewind T self m with ⟨r1, m1⟩
  cases r1 with
  | error e => rfl
  | ok v => simp [drainReads_eq_each_loop]

/-- One `read` over the in-memory transport. -/
theorem mock_read (es : List smbc_dirent) (u : String) (enc : Option Encoding) (self : Nat)
    (m : Machine MockDir) (h : ServesOpen es u enc self m) :
    ServesOpen es u enc self (rb_smbdir_read mockTransport self m).2 ∧
    (∀ e, es.get? m.transport.pos = some e →
      (rb_smbdir_read mockTransport self m).1 = Except.ok (VALUE.dirEntry (entryFor u enc e)) ∧
      (rb_smbdir_read mockTransport self m).2.transport.pos = m.transport.pos + 1) ∧
    (es.get? m.transport.pos = none →
      (rb_smbdir_read mockTransport self m).1 = Except.ok VALUE.Qnil) := by
  obtain ⟨hopen, hurl, henc, hes⟩ := h
  have hframe := rb_smbdir_read_frame mockTransport self m
  unfold ServesOpen
  rw [hframe.1]
  subst hes
  unfold rb_smbdir_read
  simp only [RB_SMBFILE_DATA_CLOSED, hopen, if_false, mockTransport]
  cases hg : m.transport.entries.get? m.transport.pos with
  | none => simp [hopen, hurl, henc, errnoAfter]
  | some e =>
    simp [hopen, hurl, henc, errnoAfter, rb_str_new2, entryFor, rb_external_str_new_with_enc,
      rb_str_cat2, rb_str_new]

/-- One `rewind` over the in-memory transport. -/
theorem mock_rewind (es : List smbc_dirent) (u : String) (enc : Option Encoding) (self : Nat)
    (m : Machine MockDir) (h : ServesOpen es u enc self m) :
    ServesOpen es u enc self (rb_smbdir_rewind mockTransport self m).2 ∧
    (rb_smbdir_rewind mockTransport self m).1 = Except.ok (VALUE.obj self) ∧
    (rb_smbdir_rewind mockTransport self m).2.transport.pos = 0 := by
  obtain ⟨hopen, hurl, henc, hes⟩ := h
  have hframe := rb_smbdir_seek_frame mockTransport self 0 m
  unfold ServesOpen rb_smbdir_rewind
  rw [hframe.1]
  unfold rb_smbdir_seek
  have hl : LONG_MIN ≤ (0 : Int) ∧ (0 : Int) ≤ LONG_MAX := by decide
  simp only [RB_SMBFILE_DATA_CLOSED, hopen, if_false, NUM2LONG, hl, and_self, if_true,
    mockTransport]
  simp [hopen, hurl, henc, hes]

/-- The loop of `each` when `read` returns nil: it ends. -/
theorem rb_smbdir_each_loop_nil {τ : Type} (T : Transport τ) (self : Nat) (fuel : Nat)
    (m : Machine τ) (hr : (rb_smbdir_read T self m).1 = Except.ok VALUE.Qnil) :
    rb_smbdir_each_loop T self (fuel + 1) m =
      { outcome := some (Except.ok (VALUE.obj self)), yielded := [],
        final := (rb_smbdir_read T self m).2 } := by
  unfold rb_smbdir_each_loop
  simp only [hr]

/-- The loop of `each` when `read` returns an entry: it yields the entry and
goes on. -/
theorem rb_smbdir_each_loop_entry {τ : Type} (T : Transport τ) (self : Nat) (fuel : Nat)
    (m : Machine τ) (e : DirEntry)
    (hr : (rb_smbdir_read T self m).1 = Except.ok (VALUE.dirEntry e)) :
    rb_smbdir_each_loop T self (fuel + 1) m =
      { outcome := (rb_smbdir_each_loop T self fuel (rb_smbdir_read T self m).2).outcome,
        yielded := VALUE.dirEntry e ::
          (rb_smbdir_each_loop T self fuel (rb_smbdir_read T self m).2).yielded,
        final := (rb_smbdir_each_loop T self fuel (rb_smbdir_read T self m).2).final } := by
  conv_lhs => unfold rb_smbdir_each_loop
  simp only [hr]

/-- The loop of `each` over the in-memory transport, from cursor `p`: it
yields the entries from `p` on and ends normally. -/
theorem mock_each_loop (es : List smbc_dirent) (u : String) (enc : Option Encoding)
    (self : Nat) (k : Nat) :
    ∀ (fuel : Nat) (m : Machine MockDir), ServesOpen es u enc self m →
      m.transport.pos + k = es.length → k < fuel →
      (rb_smbdir_each_loop mockTransport self fuel m).outcome =
        some (Except.ok (VALUE.obj self)) ∧
      (rb_smbdir_each_loop mockTransport self fuel m).yielded =
        (es.drop m.transport.pos).map (fun e => VALUE.dirEntry (entryFor u enc e)) ∧
      ServesOpen es u enc self (rb_smbdir_each_loop mockTransport self fuel m).final := by
  induction k with
  | zero =>
    intro fuel m h hp hf
    obtain ⟨f, rfl⟩ : ∃ f, fuel = f + 1 := ⟨fuel - 1, by omega⟩
    obtain ⟨h1, _, h3⟩ := mock_read es u enc self m h
    have hnone : es.get? m.transport.pos = none := by
      rw [List.get?_eq_none]; omega
    have hr := h3 hnone
    rw [rb_smbdir_each_loop_nil mockTransport self f m hr]
    refine ⟨rfl, ?_, h1⟩
    rw [List.drop_of_length_le (by omega)]
    rfl
  | succ k ih =>
    intro fuel m h hp hf
    obtain ⟨f, rfl⟩ : ∃ f, fuel = f + 1 := ⟨fuel - 1, by omega⟩
    obtain ⟨h1, h2, _⟩ := mock_read es u enc self m h
    have hlt : m.transport.pos < es.length := by omega
    have hsome : es.get? m.transport.pos = some (es.get ⟨m.transport.pos, hlt⟩) :=
      List.get?_eq_get hlt
    obtain ⟨hr, hpos⟩ := h2 _ hsome
    obtain ⟨i1, i2, i3⟩ := ih f (rb_smbdir_read mockTransport self m).2 h1
      (by rw [hpos]; omega) (by omega)
    rw [rb_smbdir_each_loop_entry mockTransport self f m _ hr]
    refine ⟨i1, ?_, i3⟩
    show _ :: (rb_smbdir_each_loop mockTransport self f
      (rb_smbdir_read mockTransport self m).2).yielded = _
    rw [i2, hpos]
    have hd : es.drop m.transport.pos =
        es.get ⟨m.transport.pos, hlt⟩ :: es.drop (m.transport.pos + 1) :=
      List.drop_eq_getElem_cons hlt
    rw [hd]
    rfl

/-- Method `each` with a block over the in-memory transport, from any cursor. -/
theorem mock_each (es : List smbc_dirent) (u : String) (enc : Option Encoding)
    (self : Nat) (fuel : Nat) (m : Machine MockDir) (h : ServesOpen es u enc self m)
    (hf : es.length < fuel) :
    (rb_smbdir_each mockTransport self true fuel m).outcome =
      some (Except.ok (VALUE.obj self)) ∧
    (rb_smbdir_each mockTransport self true fuel m).yielded =
      es.map (fun e => VALUE.dirEntry (entryFor u enc e)) ∧
    ServesOpen es u enc self (rb_smbdir_each mockTransport self true fuel m).final := by
  obtain ⟨h1, h2, h3⟩ := mock_rewind es u enc self m h
  obtain ⟨i1, i2, i3⟩ := mock_each_loop es u enc self es.length fuel
    (rb_smbdir_rewind mockTransport self m).2 h1 (by rw [h3]; omega) hf
  unfold rb_smbdir_each
  simp only [h2, if_true]
  rw [h3] at i2
  exact ⟨i1, by simpa using i2, i3⟩

/-- C3: on an open handle with URL `u` over the error-free in-memory
transport serving the raw entries `es`, wherever the cursor is before the call,
`each` (with enough steps for the `es.length` entries and the final nil) ends
normally and yields exactly one DirectoryEntry per raw entry, in the
transport's order, each with the raw name, the raw type code and the URL
`u + "/" + name`. -/
theorem each_yields_all_entries (es : List smbc_dirent) (u : String) (enc : Option Encoding)
    (self : Nat) (fuel : Nat) (m : Machine MockDir) (h : ServesOpen es u enc self m)
    (hf : es.length < fuel) :
    (rb_smbdir_each mockTransport self true fuel m).outcome =
      some (Except.ok (VALUE.obj self)) ∧
    (rb_smbdir_each mockTransport self true fuel m).yielded =
      es.map (fun e => VALUE.dirEntry
        { name := { bytes := e.name, enc := enc },
          type := e.smbc_type,
          url := { bytes := u ++ "/" ++ e.name, enc := some Encoding.ascii8bit },
          comment := { bytes := String.mk (e.comment.data.take e.commentlen),
                       enc := some Encoding.ascii8bit } }) ∧
    (rb_smbdir_each mockTransport self true fuel m).yielded.length = es.length := by
  obtain ⟨h1, h2, _⟩ := mock_each es u enc self fuel m h hf
  refine ⟨h1, h2, ?_⟩
  rw [h2, List.length_map]

/-- C3 at the spec's scenario: entries `a.txt` (File) and `sub` (Dir) under
`smb://host/share`, the cursor being at 1 before the call. -/
theorem each_yields_all_entries_witness :
    ServesOpen scenarioEntries "smb://host/share" (some Encoding.utf8) 1
      (openMachine (MockDir.mk scenarioEntries 1)) ∧
    (rb_smbdir_each mockTransport 1 true 3 (openMachine (MockDir.mk scenarioEntries 1))).yielded =
      [ VALUE.dirEntry
          { name := { bytes := "a.txt", enc := some Encoding.utf8 },
            type := SMBC_FILE,
            url := { bytes := "smb://host/share/a.txt", enc := some Encoding.ascii8bit },
            comment := { bytes := "", enc := some Encoding.ascii8bit } },
        VALUE.dirEntry
          { name := { bytes := "sub", enc := some Encoding.utf8 },
            type := SMBC_DIR,
            url := { bytes := "smb://host/share/sub", enc := some Encoding.ascii8bit },
            comment := { bytes := "", enc := some Encoding.ascii8bit } } ] :=
  ⟨⟨by decide, rfl, rfl, rfl⟩,
    (each_yields_all_entries scenarioEntries "smb://host/share" (some Encoding.utf8) 1 3
      (openMachine (MockDir.mk scenarioEntries 1)) ⟨by decide, rfl, rfl, rfl⟩
      (by decide)).2.1⟩

/-! ## Iteration over any unchanging, error-free transport -/

/-- The machine `read` leaves on an open handle, whatever it returns. -/
theorem rb_smbdir_read_open_machine {τ : Type} (T : Transport τ) (self : Nat) (m : Machine τ)
    (hopen : (m.file self).smbcfile ≠ none) :
    (rb_smbdir_read T self m).2 =
      { m with
        transport := (T.readdir m.transport (m.file self).smbcctx (m.file self).smbcfile).2.2,
        errno := errnoAfter 0
          (T.readdir m.transport (m.file self).smbcctx (m.file self).smbcfile).2.1,
        calls := m.calls ++ [Call.readdir (m.file self).smbcctx (m.file self).smbcfile] } := by
  unfold rb_smbdir_read
  simp only [RB_SMBFILE_DATA_CLOSED, hopen, if_false]
  repeat' split
  all_goals rfl

/-- One `read` over an unchanging, error-free transport. -/
theorem stable_read {τ : Type} (T : Transport τ) (ctx dir : Ptr) (es : List smbc_dirent)
    (inv : τ → Prop) (cursor : τ → Nat) (hT : UnchangingErrorFree T ctx dir es inv cursor)
    (u : String) (enc : Option Encoding) (self : Nat) (m : Machine τ)
    (h : HandleOver ctx dir u enc inv self m) :
    (∀ e, es.get? (cursor m.transport) = some e →
      HandleOver ctx dir u enc inv self (rb_smbdir_read T self m).2 ∧
      (rb_smbdir_read T self m).1 = Except.ok (VALUE.dirEntry (entryFor u enc e)) ∧
      cursor (rb_smbdir_read T self m).2.transport = cursor m.transport + 1) ∧
    (es.get? (cursor m.transport) = none →
      HandleOver ctx dir u enc inv self (rb_smbdir_read T self m).2 ∧
      (rb_smbdir_read T self m).1 = Except.ok VALUE.Qnil) := by
  obtain ⟨hfile, hdir, hctx, hurl, henc, hinv⟩ := h
  have hopen : (m.file self).smbcfile ≠ none := by rw [hfile]; exact hdir
  have hm := rb_smbdir_read_open_machine T self m hopen
  have hframe := (rb_smbdir_read_frame T self m).1
  have htr : (rb_smbdir_read T self m).2.transport = (T.readdir m.transport ctx dir).2.2 := by
    rw [hm, hctx, hfile]
  refine ⟨?_, ?_⟩
  · intro e hget
    obtain ⟨r1, r2, r3⟩ := hT.2.1 m.transport e hinv hget
    refine ⟨⟨by rw [hframe]; exact hfile, hdir, by rw [hframe]; exact hctx,
      by rw [hframe]; exact hurl, by rw [hframe]; exact henc, by rw [htr]; exact r2⟩, ?_,
      by rw [htr]; exact r3⟩
    unfold rb_smbdir_read
    simp only [RB_SMBFILE_DATA_CLOSED, hopen, if_false]
    rw [hctx, hfile]
    simp [r1, hurl, henc, rb_str_new2, entryFor, rb_external_str_new_with_enc, rb_str_cat2,
      rb_str_new]
  · intro hget
    obtain ⟨r1, r2, r3⟩ := hT.2.2 m.transport hinv hget
    refine ⟨⟨by rw [hframe]; exact hfile, hdir, by rw [hframe]; exact hctx,
      by rw [hframe]; exact hurl, by rw [hframe]; exact henc, by rw [htr]; exact r3⟩, ?_⟩
    unfold rb_smbdir_read
    simp only [RB_SMBFILE_DATA_CLOSED, hopen, if_false]
    rw [hctx, hfile]
    simp [r1, r2]

/-- One `rewind` over an unchanging, error-free transport. -/
theorem stable_rewind {τ : Type} (T : Transport τ) (ctx dir : Ptr) (es : List smbc_dirent)
    (inv : τ → Prop) (cursor : τ → Nat) (hT : UnchangingErrorFree T ctx dir es inv cursor)
    (u : String) (enc : Option Encoding) (self : Nat) (m : Machine τ)
    (h : HandleOver ctx dir u enc inv self m) :
    HandleOver ctx dir u enc inv self (rb_smbdir_rewind T self m).2 ∧
    (rb_smbdir_rewind T self m).1 = Except.ok (VALUE.obj self) ∧
    cursor (rb_smbdir_rewind T self m).2.transport = 0 := by
  obtain ⟨hfile, hdir, hctx, hurl, henc, hinv⟩ := h
  have hopen : (m.file self).smbcfile ≠ none := by rw [hfile]; exact hdir
  obtain ⟨r1, r2, r3⟩ := hT.1 m.transport hinv
  have hl : LONG_MIN ≤ (0 : Int) ∧ (0 : Int) ≤ LONG_MAX := by decide
  have hseek : rb_smbdir_rewind T self m =
      (Except.ok (VALUE.obj self),
        { m with
          transport := (T.lseekdir m.transport ctx dir 0).2.2,
          errno := errnoAfter 0 (T.lseekdir m.transport ctx dir 0).2.1,
          calls := m.calls ++ [Call.lseekdir ctx dir 0] }) := by
    unfold rb_smbdir_rewind rb_smbdir_seek
    simp only [RB_SMBFILE_DATA_CLOSED, hopen, if_false, NUM2LONG, hl, and_self, if_true]
    rw [hctx, hfile]
    simp only [r1, if_false]
  rw [hseek]
  exact ⟨⟨hfile, hdir, hctx, hurl, henc, r2⟩, rfl, r3⟩

/-- The loop of `each` over an unchanging, error-free transport, from any
cursor: it yields the entries from the cursor on and ends normally. -/
theorem stable_each_loop {τ : Type} (T : Transport τ) (ctx dir : Ptr)
    (es : List smbc_dirent) (inv : τ → Prop) (cursor : τ → Nat)
    (hT : UnchangingErrorFree T ctx dir es inv cursor)
    (u : String) (enc : Option Encoding) (self : Nat) (k : Nat) :
    ∀ (fuel : Nat) (m : Machine τ), HandleOver ctx dir u enc inv self m →
      cursor m.transport + k = es.length → k < fuel →
      (rb_smbdir_each_loop T self fuel m).outcome = some (Except.ok (VALUE.obj self)) ∧
      (rb_smbdir_each_loop T self fuel m).yielded =
        (es.drop (cursor m.transport)).map (fun e => VALUE.dirEntry (entryFor u enc e)) ∧
      HandleOver ctx dir u enc inv self (rb_smbdir_each_loop T self fuel m).final := by
  induction k with
  | zero =>
    intro fuel m h hp hf
    obtain ⟨f, rfl⟩ : ∃ f, fuel = f + 1 := ⟨fuel - 1, by omega⟩
    have hnone : es.get? (cursor m.transport) = none := by
      rw [List.get?_eq_none]; omega
    obtain ⟨h1, hr⟩ := (stable_read T ctx dir es inv cursor hT u enc self m h).2 hnone
    rw [rb_smbdir_each_loop_nil T self f m hr]
    refine ⟨rfl, ?_, h1⟩
    rw [List.drop_of_length_le (by omega)]
    rfl
  | succ k ih =>
    intro fuel m h hp hf
    obtain ⟨f, rfl⟩ : ∃ f, fuel = f + 1 := ⟨fuel - 1, by omega⟩
    have hlt : cursor m.transport < es.length := by omega
    have hsome : es.get? (cursor m.transport) = some (es.get ⟨cursor m.transport, hlt⟩) :=
      List.get?_eq_get hlt
    obtain ⟨h1, hr, hpos⟩ := (stable_read T ctx dir es inv cursor hT u enc self m h).1 _ hsome
    obtain ⟨i1, i2, i3⟩ := ih f (rb_smbdir_read T self m).2 h1 (by rw [hpos]; omega) (by omega)
    rw [rb_smbdir_each_loop_entry T self f m _ hr]
    refine ⟨i1, ?_, i3⟩
    show _ :: (rb_smbdir_each_loop T self f (rb_smbdir_read T self m).2).yielded = _
    rw [i2, hpos]
    have hd : es.drop (cursor m.transport) =
        es.get ⟨cursor m.transport, hlt⟩ :: es.drop (cursor m.transport + 1) :=
      List.drop_eq_getElem_cons hlt
    rw [hd]
    rfl

/-- Method `each` with a block over an unchanging, error-free transport, from
any cursor: it yields all of `es`, in order, and ends normally. -/
theorem stable_each {τ : Type} (T : Transport τ) (ctx dir : Ptr) (es : List smbc_dirent)
    (inv : τ → Prop) (cursor : τ → Nat) (hT : UnchangingErrorFree T ctx dir es inv cursor)
    (u : String) (enc : Option Encoding) (self : Nat) (fuel : Nat) (m : Machine τ)
    (h : HandleOver ctx dir u enc inv self m) (hf : es.length < fuel) :
    (rb_smbdir_each T self true fuel m).outcome = some (Except.ok (VALUE.obj self)) ∧
    (rb_smbdir_each T self true fuel m).yielded =
      es.map (fun e => VALUE.dirEntry (entryFor u enc e)) ∧
    HandleOver ctx dir u enc inv self (rb_smbdir_each T self true fuel m).final := by
  obtain ⟨h1, h2, h3⟩ := stable_rewind T ctx dir es inv cursor hT u enc self m h
  obtain ⟨i1, i2, i3⟩ := stable_each_loop T ctx dir es inv cursor hT u enc self es.length fuel
    (rb_smbdir_rewind T self m).2 h1 (by rw [h3]; omega) hf
  unfold rb_smbdir_each
  simp only [h2, if_true]
  rw [h3] at i2
  exact ⟨i1, by simpa using i2, i3⟩

/-- The in-memory transport has unchanging contents and reports no errors. -/
theorem mockTransport_unchanging (ctx dir : Ptr) (es : List smbc_dirent) :
    UnchangingErrorFree mockTransport ctx dir es (fun t => t.entries = es)
      (fun t => t.pos) := by
  refine ⟨?_, ?_, ?_⟩
  · intro t ht
    simp [mockTransport, ht]
  · intro t e ht hget
    subst ht
    have hget2 : t.entries[t.pos]? = some e := by simpa using hget
    simp [mockTransport, hget2]
  · intro t ht hget
    subst ht
    have hget2 : t.entries[t.pos]? = none := by simpa using hget
    simp [mockTransport, hget2, errnoAfter]

/-- The transport that leaves `errno` set on success has unchanging contents
and reports no errors all the same. -/
theorem noisyTransport_unchanging (ctx dir : Ptr) (es : List smbc_dirent) :
    UnchangingErrorFree noisyTransport ctx dir es (fun t => t.entries = es)
      (fun t => t.pos) := by
  refine ⟨?_, ?_, ?_⟩
  · intro t ht
    simp [noisyTransport, ht]
  · intro t e ht hget
    subst ht
    have hget2 : t.entries[t.pos]? = some e := by simpa using hget
    simp [noisyTransport, hget2]
  · intro t ht hget
    subst ht
    have hget2 : t.entries[t.pos]? = none := by simpa using hget
    simp [noisyTransport, hget2, errnoAfter]

/-- C6: restartability.  Over any transport whose directory has the unchanging
contents `es` and reports no errors (`UnchangingErrorFree`; it may leave
`errno` set after a successful call), for handles open on `u` and whatever the
cursors are: `rewind()` then `read()` until nil returns the very sequence that
a call of `each` yields (here even started from another cursor), of length
`es.length`; and a second `each` right after the first yields the same
sequence again, both ending normally. -/
theorem restartability {τ : Type} (T : Transport τ) (ctx dir : Ptr) (es : List smbc_dirent)
    (inv : τ → Prop) (cursor : τ → Nat) (hT : UnchangingErrorFree T ctx dir es inv cursor)
    (u : String) (enc : Option Encoding) (self : Nat) (fuel : Nat) (m₁ m₂ : Machine τ)
    (h₁ : HandleOver ctx dir u enc inv self m₁) (h₂ : HandleOver ctx dir u enc inv self m₂)
    (hf : es.length < fuel) :
    (rewindThenDrain T self fuel m₁).1 =
      some (rb_smbdir_each T self true fuel m₂).yielded ∧
    (rb_smbdir_each T self true fuel m₂).outcome = some (Except.ok (VALUE.obj self)) ∧
    (rb_smbdir_each T self true fuel m₂).yielded.length = es.length ∧
    (rb_smbdir_each T self true fuel (rb_smbdir_each T self true fuel m₂).final).yielded =
      (rb_smbdir_each T self true fuel m₂).yielded ∧
    (rb_smbdir_each T self true fuel (rb_smbdir_each T self true fuel m₂).final).outcome =
      some (Except.ok (VALUE.obj self)) := by
  obtain ⟨a1, a2, _⟩ := stable_each T ctx dir es inv cursor hT u enc self fuel m₁ h₁ hf
  obtain ⟨b1, b2, b3⟩ := stable_each T ctx dir es inv cursor hT u enc self fuel m₂ h₂ hf
  obtain ⟨c1, c2, _⟩ := stable_each T ctx dir es inv cursor hT u enc self fuel _ b3 hf
  refine ⟨?_, b1, by rw [b2, List.length_map], by rw [c2, b2], c1⟩
  rw [rewindThenDrain_eq_each, a1, a2, b2]

/-- C6 at concrete inputs: the scenario's two entries, draining from a handle
whose cursor is at the end and iterating from one whose cursor is at the
start, over the in-memory transport and over the transport that leaves `errno`
set on success and returns 5 from `lseekdir`. -/
theorem restartability_witness :
    (UnchangingErrorFree noisyTransport (some 100) (some 7) scenarioEntries
        (fun t => t.entries = scenarioEntries) (fun t => t.pos) ∧
      HandleOver (some 100) (some 7) "smb://host/share" (some Encoding.utf8)
        (fun t : MockDir => t.entries = scenarioEntries) 1
        (openMachine (MockDir.mk scenarioEntries 2)) ∧
      HandleOver (some 100) (some 7) "smb://host/share" (some Encoding.utf8)
        (fun t : MockDir => t.entries = scenarioEntries) 1
        (openMachine (MockDir.mk scenarioEntries 0))) ∧
    (rewindThenDrain mockTransport 1 3 (openMachine (MockDir.mk scenarioEntries 2))).1 =
      some (rb_smbdir_each mockTransport 1 true 3
        (openMachine (MockDir.mk scenarioEntries 0))).yielded ∧
    (rewindThenDrain noisyTransport 1 3 (openMachine (MockDir.mk scenarioEntries 2))).1 =
      some (rb_smbdir_each noisyTransport 1 true 3
        (openMachine (MockDir.mk scenarioEntries 0))).yielded ∧
    (rb_smbdir_each noisyTransport 1 true 3
      (openMachine (MockDir.mk scenarioEntries 0))).yielded.length = 2 :=
  ⟨⟨noisyTransport_unchanging (some 100) (some 7) scenarioEntries,
      ⟨rfl, by decide, rfl, rfl, rfl, rfl⟩, ⟨rfl, by decide, rfl, rfl, rfl, rfl⟩⟩,
    (restartability mockTransport (some 100) (some 7) scenarioEntries
      (fun t => t.entries = scenarioEntries) (fun t => t.pos)
      (mockTransport_unchanging (some 100) (some 7) scenarioEntries)
      "smb://host/share" (some Encoding.utf8) 1 3
      (openMachine (MockDir.mk scenarioEntries 2)) (openMachine (MockDir.mk scenarioEntries 0))
      ⟨rfl, by decide, rfl, rfl, rfl, rfl⟩ ⟨rfl, by decide, rfl, rfl, rfl, rfl⟩
      (by decide)).1,
    (restartability noisyTransport (some 100) (some 7) scenarioEntries
      (fun t => t.entries = scenarioEntries) (fun t => t.pos)
      (noisyTransport_unchanging (some 100) (some 7) scenarioEntries)
      "smb://host/share" (some Encoding.utf8) 1 3
      (openMachine (MockDir.mk scenarioEntries 2)) (openMachine (MockDir.mk scenarioEntries 0))
      ⟨rfl, by decide, rfl, rfl, rfl, rfl⟩ ⟨rfl, by decide, rfl, rfl, rfl, rfl⟩
      (by decide)).1,
    (restartability noisyTransport (some 100) (some 7) scenarioEntries
      (fun t => t.entries = scenarioEntries) (fun t => t.pos)
      (noisyTransport_unchanging (some 100) (some 7) scenarioEntries)
      "smb://host/share" (some Encoding.utf8) 1 3
      (openMachine (MockDir.mk scenarioEntries 2)) (openMachine (MockDir.mk scenarioEntries 0))
      ⟨rfl, by decide, rfl, rfl, rfl, rfl⟩ ⟨rfl, by decide, rfl, rfl, rfl, rfl⟩
      (by decide)).2.2.1⟩

end SMBDir
